import Mathlib

/-!
Verification of the compiled-rust-benchmarking harness against its
natural-language specification.

The development shallowly embeds the relevant Rust code:
* `crates/harness/src/config.rs` and `config/generator.rs` (configuration
  model and matrix generator),
* `crates/harness/src/pathfinder.rs` (pathfinder subset selector),
* `crates/harness/src/build_matrix.rs` (benchmark x config job matrix),
* `crates/harness/src/scheduler.rs` (job lifecycle states),
* `crates/harness/src/measurement.rs` (measurement parsing and statistics),
* `crates/stats/src/lib.rs` and `crates/analysis/src/basic.rs` /
  `frequentist.rs` (descriptive and frequentist statistics).

Machine integers (`u64`, `usize`) are modelled as `Nat`; none of the
embedded arithmetic can overflow in the scenarios the claims quantify
over.  `f64` values are idealised as real numbers, `Vec<T>`/slices as
`List`, `Result<T, String>` as `Except String T` and `Option<T>` as
`Option T`.  Loops with early `break` are modelled by structural
recursion, and `&mut self` methods by explicit state passing.
-/

/-! ## Configuration model (`crates/harness/src/config.rs`) -/

/-- `OptLevel`: optimization level setting. -/
inductive OptLevel where
  | O0 | O1 | O2 | O3 | Os | Oz
deriving DecidableEq, Repr

/-- `OptLevel::to_profile_string`. -/
def OptLevel.to_profile_string : OptLevel → String
  | .O0 => "0"
  | .O1 => "1"
  | .O2 => "2"
  | .O3 => "3"
  | .Os => "s"
  | .Oz => "z"

/-- `LtoSetting`: link-time optimization setting. -/
inductive LtoSetting where
  | Off | Thin | Fat
deriving DecidableEq, Repr

/-- The string produced by Rust `format!("{:?}", lto)` for `LtoSetting`. -/
def LtoSetting.debugStr : LtoSetting → String
  | .Off => "Off"
  | .Thin => "Thin"
  | .Fat => "Fat"

/-- `CodegenUnits`: codegen units setting. -/
inductive CodegenUnits where
  | One | Four | Sixteen | TwoFiftySix
deriving DecidableEq, Repr

/-- `CodegenUnits::value`. -/
def CodegenUnits.value : CodegenUnits → Nat
  | .One => 1
  | .Four => 4
  | .Sixteen => 16
  | .TwoFiftySix => 256

/-- `PgoSetting`: profile-guided optimization setting. -/
inductive PgoSetting where
  | Off | On
deriving DecidableEq, Repr

/-- `TargetCpu`: target CPU setting. -/
inductive TargetCpu where
  | Generic | Native | Specific
deriving DecidableEq, Repr

/-- The string produced by Rust `format!("{:?}", cpu)` for `TargetCpu`. -/
def TargetCpu.debugStr : TargetCpu → String
  | .Generic => "Generic"
  | .Native => "Native"
  | .Specific => "Specific"

/-- `StripSetting`: binary stripping setting. -/
inductive StripSetting where
  | None | Symbols | Debuginfo
deriving DecidableEq, Repr

/-- The string produced by Rust `format!("{:?}", strip)` for `StripSetting`. -/
def StripSetting.debugStr : StripSetting → String
  | .None => "None"
  | .Symbols => "Symbols"
  | .Debuginfo => "Debuginfo"

/-- Rust `str::to_lowercase` restricted to ASCII, which is all the
generator's ids use. -/
def strLower (s : String) : String := ⟨s.data.map Char.toLower⟩

/-- `OptimizationConfig`: a named configuration record with six
categorical factors. -/
structure OptimizationConfig where
  id : String
  opt_level : OptLevel
  lto : LtoSetting
  codegen_units : CodegenUnits
  pgo : PgoSetting
  target_cpu : TargetCpu
  strip : StripSetting
deriving DecidableEq, Repr

/-- `OptimizationConfig::new`. -/
def OptimizationConfig.new (id : String) (opt_level : OptLevel)
    (lto : LtoSetting) (codegen_units : CodegenUnits) (pgo : PgoSetting)
    (target_cpu : TargetCpu) (strip : StripSetting) : OptimizationConfig :=
  ⟨id, opt_level, lto, codegen_units, pgo, target_cpu, strip⟩

/-- `OptimizationConfig::baseline`. -/
def OptimizationConfig.baseline : OptimizationConfig :=
  ⟨"baseline", .O0, .Off, .Sixteen, .Off, .Generic, .None⟩

/-- `OptimizationConfig::standard_release`. -/
def OptimizationConfig.standard_release : OptimizationConfig :=
  ⟨"standard-release", .O3, .Off, .Sixteen, .Off, .Generic, .None⟩

/-! ## Configuration generator (`crates/harness/src/config/generator.rs`)

The Rust `ConfigGenerator` holds a `configs: Vec<OptimizationConfig>`;
each `add_*` method pushes onto it and `generate_matrix` first clears it.
The state is modelled as the list of configurations, and each tier
method as a function appending its configurations. -/

/-- The `ConfigGenerator` state: its `configs` vector. -/
abbrev ConfigGenerator := List OptimizationConfig

/-- `ConfigGenerator::new`. -/
def ConfigGenerator.new : ConfigGenerator := []

/-- `add_baseline_configs`. -/
def add_baseline_configs (g : ConfigGenerator) : ConfigGenerator :=
  g ++ [OptimizationConfig.baseline, OptimizationConfig.standard_release]

/-- `add_single_factor_variations`: one factor varied away from the
standard-release base at a time. -/
def add_single_factor_variations (g : ConfigGenerator) : ConfigGenerator :=
  let base := OptimizationConfig.standard_release
  g ++
    ([OptLevel.O0, .O1, .O2, .Os, .Oz].map fun opt_level =>
      OptimizationConfig.new ("opt-" ++ opt_level.to_profile_string)
        opt_level base.lto base.codegen_units base.pgo base.target_cpu base.strip) ++
    ([LtoSetting.Thin, .Fat].map fun lto =>
      OptimizationConfig.new (strLower ("lto-" ++ lto.debugStr))
        base.opt_level lto base.codegen_units base.pgo base.target_cpu base.strip) ++
    ([CodegenUnits.One, .Four, .TwoFiftySix].map fun units =>
      OptimizationConfig.new ("codegen-" ++ toString units.value)
        base.opt_level base.lto units base.pgo base.target_cpu base.strip) ++
    ([TargetCpu.Native, .Specific].map fun cpu =>
      OptimizationConfig.new (strLower ("cpu-" ++ cpu.debugStr))
        base.opt_level base.lto base.codegen_units base.pgo cpu base.strip) ++
    ([StripSetting.Symbols, .Debuginfo].map fun strip =>
      OptimizationConfig.new (strLower ("strip-" ++ strip.debugStr))
        base.opt_level base.lto base.codegen_units base.pgo base.target_cpu strip)

/-- `add_lto_variations`. -/
def add_lto_variations (g : ConfigGenerator) : ConfigGenerator :=
  g ++
    ([OptLevel.O2, .O3].flatMap fun opt_level =>
      [LtoSetting.Thin, .Fat].map fun lto =>
        OptimizationConfig.new
          (strLower ("lto-" ++ lto.debugStr ++ "-opt" ++ opt_level.to_profile_string))
          opt_level lto .Sixteen .Off .Generic .None) ++
    ([LtoSetting.Thin, .Fat].flatMap fun lto =>
      [CodegenUnits.One, .Four].map fun units =>
        OptimizationConfig.new
          (strLower ("lto-" ++ lto.debugStr ++ "-cg" ++ toString units.value))
          .O3 lto units .Off .Generic .None)

/-- `add_size_optimizations`. -/
def add_size_optimizations (g : ConfigGenerator) : ConfigGenerator :=
  g ++
    ([OptLevel.Os, .Oz].flatMap fun opt_level =>
      [OptimizationConfig.new ("size-" ++ opt_level.to_profile_string ++ "-lto")
          opt_level .Fat .One .Off .Generic .Symbols,
        OptimizationConfig.new ("size-" ++ opt_level.to_profile_string ++ "-strip")
          opt_level .Thin .Sixteen .Off .Generic .Debuginfo]) ++
    [OptimizationConfig.new "size-ultra" .Oz .Fat .One .Off .Generic .Debuginfo]

/-- `add_performance_optimizations`. -/
def add_performance_optimizations (g : ConfigGenerator) : ConfigGenerator :=
  g ++
    [OptimizationConfig.new "perf-ultra" .O3 .Fat .One .Off .Native .Symbols] ++
    ([LtoSetting.Thin, .Fat].map fun lto =>
      OptimizationConfig.new (strLower ("perf-native-lto-" ++ lto.debugStr))
        .O3 lto .One .Off .Native .None) ++
    [OptimizationConfig.new "perf-balanced" .O3 .Thin .Four .Off .Generic .None]

/-- `add_pgo_variations`. -/
def add_pgo_variations (g : ConfigGenerator) : ConfigGenerator :=
  g ++
    ([OptLevel.O2, .O3].map fun opt_level =>
      OptimizationConfig.new ("pgo-opt" ++ opt_level.to_profile_string)
        opt_level .Off .Sixteen .On .Generic .None) ++
    ([LtoSetting.Thin, .Fat].map fun lto =>
      OptimizationConfig.new (strLower ("pgo-lto-" ++ lto.debugStr))
        .O3 lto .Sixteen .On .Generic .None) ++
    [OptimizationConfig.new "pgo-native" .O3 .Fat .One .On .Native .Symbols]

/-- `add_codegen_variations`. -/
def add_codegen_variations (g : ConfigGenerator) : ConfigGenerator :=
  g ++
    ([CodegenUnits.One, .Four, .Sixteen].flatMap fun units =>
      [OptLevel.O2, .O3].map fun opt_level =>
        OptimizationConfig.new
          ("cg" ++ toString units.value ++ "-opt" ++ opt_level.to_profile_string)
          opt_level .Off units .Off .Generic .None) ++
    ([CodegenUnits.One, .Sixteen].map fun units =>
      OptimizationConfig.new ("cg" ++ toString units.value ++ "-strip")
        .O3 .Thin units .Off .Generic .Symbols)

/-- `add_cpu_variations`. -/
def add_cpu_variations (g : ConfigGenerator) : ConfigGenerator :=
  g ++
    ([TargetCpu.Native, .Specific].flatMap fun cpu =>
      [OptLevel.O2, .O3].map fun opt_level =>
        OptimizationConfig.new
          (strLower ("cpu-" ++ cpu.debugStr ++ "-opt" ++ opt_level.to_profile_string))
          opt_level .Off .Sixteen .Off cpu .None) ++
    ([TargetCpu.Native].flatMap fun cpu =>
      [CodegenUnits.One, .Four].map fun units =>
        OptimizationConfig.new ("cpu-native-cg" ++ toString units.value)
          .O3 .Off units .Off cpu .None)

/-- `add_strip_variations`. -/
def add_strip_variations (g : ConfigGenerator) : ConfigGenerator :=
  g ++
    ([StripSetting.Symbols, .Debuginfo].flatMap fun strip =>
      [OptLevel.O2, .O3, .Os].map fun opt_level =>
        OptimizationConfig.new
          (strLower ("strip-" ++ strip.debugStr ++ "-opt" ++ opt_level.to_profile_string))
          opt_level .Off .Sixteen .Off .Generic strip) ++
    ([StripSetting.Symbols, .Debuginfo].map fun strip =>
      OptimizationConfig.new (strLower ("strip-" ++ strip.debugStr ++ "-lto"))
        .O3 .Fat .One .Off .Generic strip)

/-- `add_extreme_configs`. -/
def add_extreme_configs (g : ConfigGenerator) : ConfigGenerator :=
  g ++
    [OptimizationConfig.new "min-opt" .O0 .Off .TwoFiftySix .Off .Generic .None,
      OptimizationConfig.new "max-opt" .O3 .Fat .One .On .Native .Debuginfo,
      OptimizationConfig.new "fast-compile" .O1 .Off .TwoFiftySix .Off .Generic .None]

/-- `add_two_factor_interactions`. -/
def add_two_factor_interactions (g : ConfigGenerator) : ConfigGenerator :=
  g ++
    ([OptLevel.O1, .O2].flatMap fun opt_level =>
      [StripSetting.Symbols, .Debuginfo].map fun strip =>
        OptimizationConfig.new
          (strLower ("opt" ++ opt_level.to_profile_string ++ "-strip-" ++ strip.debugStr))
          opt_level .Off .Sixteen .Off .Generic strip) ++
    ([CodegenUnits.One, .Four, .Sixteen].map fun units =>
      OptimizationConfig.new ("cg" ++ toString units.value ++ "-native")
        .O3 .Off units .Off .Native .None) ++
    ([CodegenUnits.One, .Four].map fun units =>
      OptimizationConfig.new ("pgo-cg" ++ toString units.value)
        .O3 .Off units .On .Generic .None) ++
    ([StripSetting.Symbols, .Debuginfo].map fun strip =>
      OptimizationConfig.new (strLower ("pgo-strip-" ++ strip.debugStr))
        .O3 .Thin .Sixteen .On .Generic strip) ++
    ([OptLevel.Os, .Oz].map fun opt_level =>
      OptimizationConfig.new ("size-" ++ opt_level.to_profile_string ++ "-native")
        opt_level .Thin .One .Off .Native .Symbols) ++
    [OptimizationConfig.new "balanced-perf" .O3 .Thin .Four .Off .Native .Symbols,
      OptimizationConfig.new "balanced-size" .Os .Fat .One .Off .Generic .Debuginfo,
      OptimizationConfig.new "pgo-perf-ultra" .O3 .Fat .One .On .Native .Symbols,
      OptimizationConfig.new "default-dev" .O1 .Off .Sixteen .Off .Generic .None]

/-- `ConfigGenerator::generate_matrix`: clears the stored configs, then
runs the eleven tiers in order.  Returns the new generator state and the
returned slice (which aliases the state). -/
def generate_matrix (g : ConfigGenerator) : ConfigGenerator × List OptimizationConfig :=
  let _ := g
  let cleared : ConfigGenerator := []
  let out :=
    add_two_factor_interactions (add_extreme_configs (add_strip_variations
      (add_cpu_variations (add_codegen_variations (add_pgo_variations
        (add_performance_optimizations (add_size_optimizations
          (add_lto_variations (add_single_factor_variations
            (add_baseline_configs cleared))))))))))
  (out, out)

/-! ## Pathfinder selector (`crates/harness/src/pathfinder.rs`) -/

/-- Rust `str::starts_with` on another string.  `String.startsWith` from
core is avoided because its implementation does not reduce in the
kernel; this version works on the underlying character lists. -/
def strStartsWith (s pat : String) : Bool := pat.data.isPrefixOf s.data

/-- Helper for `str::contains`: does `pat` occur as a contiguous
sublist of `l`? -/
def charsContain (pat : List Char) : List Char → Bool
  | [] => pat.isEmpty
  | c :: rest => pat.isPrefixOf (c :: rest) || charsContain pat rest

/-- Rust `str::contains` with a string pattern (substring test). -/
def strContains (s pat : String) : Bool := charsContain pat.data s.data

/-- `PathfinderStrategy`. -/
inductive PathfinderStrategy where
  | BaselineAndExtremes
  | SingleFactorCoverage
  | Balanced
deriving DecidableEq, Repr

/-- `PathfinderSelector`: strategy plus maximum number of configurations. -/
structure PathfinderSelector where
  strategy : PathfinderStrategy
  max_configs : Nat
deriving DecidableEq, Repr

/-- `PathfinderSelector::new`, clamping `max_configs` to a minimum of 1. -/
def PathfinderSelector.new (strategy : PathfinderStrategy) (max_configs : Nat) :
    PathfinderSelector :=
  ⟨strategy, Nat.max max_configs 1⟩

/-- `PathfinderSelector::balanced`. -/
def PathfinderSelector.balanced (max_configs : Nat) : PathfinderSelector :=
  PathfinderSelector.new .Balanced max_configs

/-- A `for config in configs { if p(config) { push; if len >= max { break } } }`
loop: the length check runs after each push. -/
def pushLoop (maxC : Nat) (p : OptimizationConfig → Bool) :
    List OptimizationConfig → List OptimizationConfig → List OptimizationConfig
  | [], sel => sel
  | c :: rest, sel =>
    if p c then
      let sel' := sel ++ [c]
      if maxC ≤ sel'.length then sel' else pushLoop maxC p rest sel'
    else pushLoop maxC p rest sel

/-- A `for config in configs { if len >= max { break } if p(config) { push } }`
loop: the length check runs before each candidate. -/
def fillLoop (maxC : Nat) (p : OptimizationConfig → Bool) :
    List OptimizationConfig → List OptimizationConfig → List OptimizationConfig
  | [], sel => sel
  | c :: rest, sel =>
    if maxC ≤ sel.length then sel
    else if p c then fillLoop maxC p rest (sel ++ [c])
    else fillLoop maxC p rest sel

/-- The fixed keyword list of `select_balanced` priority 2. -/
def single_factor_keywords : List String :=
  ["opt-3", "lto-thin", "lto-fat", "codegen-1", "cpu-native", "pgo-on"]

/-- The keyword loop of `select_balanced` priority 2: for each keyword
(stopping once the budget is reached) push the first configuration whose
id contains it. -/
def keywordLoop (maxC : Nat) (configs : List OptimizationConfig) :
    List String → List OptimizationConfig → List OptimizationConfig
  | [], sel => sel
  | kw :: kws, sel =>
    if maxC ≤ sel.length then sel
    else
      match configs.find? (fun c => strContains c.id kw) with
      | some c => keywordLoop maxC configs kws (sel ++ [c])
      | none => keywordLoop maxC configs kws sel

/-- The shared priority-1 step: all configurations whose id is
`baseline` or `standard-release`, in source order. -/
def baselineFilter (configs : List OptimizationConfig) : List OptimizationConfig :=
  configs.filter (fun c => c.id == "baseline" || c.id == "standard-release")

/-- `PathfinderSelector::select_baseline_and_extremes`. -/
def select_baseline_and_extremes (maxC : Nat) (configs : List OptimizationConfig) :
    List OptimizationConfig :=
  let selected := baselineFilter configs
  let selected := pushLoop maxC
    (fun c => strStartsWith c.id "extreme-" || strContains c.id "max-") configs selected
  selected.take maxC

/-- `PathfinderSelector::select_single_factor_coverage`. -/
def select_single_factor_coverage (maxC : Nat) (configs : List OptimizationConfig) :
    List OptimizationConfig :=
  let selected := baselineFilter configs
  let selected := pushLoop maxC
    (fun c => strStartsWith c.id "opt-" || strStartsWith c.id "lto-" ||
      strStartsWith c.id "codegen-" || strStartsWith c.id "pgo-" ||
      strStartsWith c.id "cpu-" || strStartsWith c.id "strip-") configs selected
  selected.take maxC

/-- `PathfinderSelector::select_balanced`. -/
def select_balanced (maxC : Nat) (configs : List OptimizationConfig) :
    List OptimizationConfig :=
  let selected := baselineFilter configs
  let selected := keywordLoop maxC configs single_factor_keywords selected
  let selected := fillLoop maxC
    (fun c => strContains c.id "size-" || strStartsWith c.id "opt-s") configs selected
  let selected := fillLoop maxC
    (fun c => strContains c.id "perf-" || strContains c.id "max-") configs selected
  let selected := fillLoop maxC (fun c => strStartsWith c.id "extreme-") configs selected
  selected.take maxC

/-- `PathfinderSelector::select`: dispatch on the strategy tag. -/
def PathfinderSelector.select (s : PathfinderSelector)
    (configs : List OptimizationConfig) : List OptimizationConfig :=
  match s.strategy with
  | .BaselineAndExtremes => select_baseline_and_extremes s.max_configs configs
  | .SingleFactorCoverage => select_single_factor_coverage s.max_configs configs
  | .Balanced => select_balanced s.max_configs configs

/-! ## Build matrix (`crates/harness/src/build_matrix.rs`) -/

/-- The fixed `BENCHMARKS` list. -/
def BENCHMARKS : List String :=
  ["ackermann", "fibonacci", "prime-sieve", "matrix-mult", "quicksort",
    "string-parse", "hashmap-ops", "file-io", "json-parse", "btreemap-ops"]

/-- `BuildJob`: a benchmark/configuration pair with its derived job id. -/
structure BuildJob where
  benchmark : String
  config_id : String
  job_id : String
deriving DecidableEq, Repr

/-- `BuildJob::new`: the job id is `format!("{}-{}", benchmark, config_id)`. -/
def BuildJob.new (benchmark config_id : String) : BuildJob :=
  ⟨benchmark, config_id, benchmark ++ "-" ++ config_id⟩

/-- `BuildMatrix`: the list of build jobs. -/
structure BuildMatrix where
  jobs : List BuildJob
deriving DecidableEq, Repr

/-- `BuildMatrix::generate`: for every benchmark, for every
configuration, one job. -/
def BuildMatrix.generate (configs : List OptimizationConfig) : BuildMatrix :=
  ⟨BENCHMARKS.flatMap fun benchmark =>
    configs.map fun config => BuildJob.new benchmark config.id⟩

/-! ## Scheduler job states (`crates/harness/src/scheduler.rs`) -/

/-- `BuildResult`: lifecycle state of a build job. -/
inductive BuildResult where
  | Success
  | Failure (error : String)
  | Pending
  | Running
deriving DecidableEq, Repr

/-- `JobStatus`. -/
structure JobStatus where
  job : BuildJob
  result : BuildResult
  duration_ms : Option Nat
deriving DecidableEq, Repr

/-- `JobStatus::new`: a fresh pending status. -/
def JobStatus.new (job : BuildJob) : JobStatus := ⟨job, .Pending, none⟩

/-- `JobStatus::mark_running`. -/
def JobStatus.mark_running (s : JobStatus) : JobStatus :=
  { s with result := .Running }

/-- `JobStatus::mark_success`. -/
def JobStatus.mark_success (s : JobStatus) (duration_ms : Nat) : JobStatus :=
  { s with result := .Success, duration_ms := some duration_ms }

/-- `JobStatus::mark_failure`. -/
def JobStatus.mark_failure (s : JobStatus) (error : String) : JobStatus :=
  { s with result := .Failure error }

/-- `JobStatus::is_complete`. -/
def JobStatus.is_complete (s : JobStatus) : Bool :=
  match s.result with
  | .Success | .Failure _ => true
  | _ => false

/-- `JobStatus::is_success`. -/
def JobStatus.is_success (s : JobStatus) : Bool :=
  match s.result with
  | .Success => true
  | _ => false

/-- One transition operation on a `JobStatus`: which `mark_*` method is
called, with its arguments. -/
inductive JobOp where
  | markRunning
  | markSuccess (duration_ms : Nat)
  | markFailure (error : String)
deriving DecidableEq, Repr

/-- Apply one `mark_*` call. -/
def applyJobOp (s : JobStatus) : JobOp → JobStatus
  | .markRunning => s.mark_running
  | .markSuccess d => s.mark_success d
  | .markFailure e => s.mark_failure e

/-- Apply a sequence of `mark_*` calls, first to last. -/
def applyJobOps (s : JobStatus) (ops : List JobOp) : JobStatus :=
  ops.foldl applyJobOp s

/-! ## Measurement parsing (`crates/harness/src/measurement.rs`)

The raw benchmark output is represented by its list of lines (Rust
iterates `output.lines()`). -/

/-- `Measurement`: one benchmark run.  Times are `u64` microseconds. -/
structure Measurement where
  startup_us : Nat
  compute_us : Nat
  total_us : Nat
  result : String
deriving DecidableEq, Repr

/-- `Measurement::new`: the total time is computed as startup + compute. -/
def Measurement.new (startup_us compute_us : Nat) (result : String) : Measurement :=
  ⟨startup_us, compute_us, startup_us + compute_us, result⟩

/-- The characters of a `split(':')` piece: everything up to the next
colon or the end. -/
def takeUntilColon : List Char → List Char
  | [] => []
  | c :: rest => if c = ':' then [] else c :: takeUntilColon rest

/-- The second piece of Rust `line.split(':')`: the characters between
the first and second colon (to the end if there is no second colon);
`none` when the line has no colon at all. -/
def afterFirstColon : List Char → Option (List Char)
  | [] => none
  | c :: rest => if c = ':' then some (takeUntilColon rest) else afterFirstColon rest

/-- Rust `line.split(':').nth(1)`. -/
def splitColonNth1 (line : String) : Option String :=
  (afterFirstColon line.data).map fun l => ⟨l⟩

/-- ASCII whitespace, which is all the benchmark reports contain; used
for Rust `str::trim`. -/
def isWS (c : Char) : Bool := c = ' ' || c = '\t' || c = '\n' || c = '\r'

/-- Rust `str::trim`: drop leading and trailing whitespace. -/
def strTrim (s : String) : String :=
  ⟨((s.data.dropWhile isWS).reverse.dropWhile isWS).reverse⟩

/-- Rust `str::parse::<u64>().ok()` on the trimmed value: all-digit
nonempty strings parse to their decimal value, everything else fails. -/
def strParseNat (s : String) : Option Nat :=
  if s.data ≠ [] ∧ s.data.all Char.isDigit then
    some (s.data.foldl (fun n c => n * 10 + (c.toNat - 48)) 0)
  else none

/-- Rust `line.split(':').nth(1).and_then(|s| s.trim().parse::<u64>().ok())`. -/
def parseTimeField (line : String) : Option Nat :=
  (splitColonNth1 line).bind fun s => strParseNat (strTrim s)

/-- Rust `line.split(':').nth(1).map(|s| s.trim().to_string())`. -/
def parseResultField (line : String) : Option String :=
  (splitColonNth1 line).map fun s => strTrim s

/-- The parser state of `Measurement::from_output`: the three mutable
`Option` locals `(startup_us, compute_us, result)`. -/
abbrev ParseState := Option Nat × Option Nat × Option String

/-- `line.starts_with("STARTUP_TIME_US:")`. -/
def isStartupLine (line : String) : Bool := strStartsWith line "STARTUP_TIME_US:"

/-- `line.starts_with("COMPUTE_TIME_US:")`. -/
def isComputeLine (line : String) : Bool := strStartsWith line "COMPUTE_TIME_US:"

/-- `line.starts_with("RESULT:")`. -/
def isResultLine (line : String) : Bool := strStartsWith line "RESULT:"

/-- One iteration of the `for line in output.lines()` loop of
`Measurement::from_output`. -/
def fromOutputStep (acc : ParseState) (line : String) : ParseState :=
  if isStartupLine line then
    (parseTimeField line, acc.2.1, acc.2.2)
  else if isComputeLine line then
    (acc.1, parseTimeField line, acc.2.2)
  else if isResultLine line then
    (acc.1, acc.2.1, parseResultField line)
  else acc

/-- `Measurement::from_output`, over the list of lines of the raw text. -/
def Measurement.from_output (lines : List String) : Except String Measurement :=
  match lines.foldl fromOutputStep (none, none, none) with
  | (some s, some c, some r) => .ok (Measurement.new s c r)
  | _ => .error "Failed to parse measurement output"

/-! ## Descriptive statistics (`crates/stats/src/lib.rs`)

`f64` is idealised as `ℝ`.  These are the total helpers used by the
measurement engine: on the empty list they return `0.0`. -/

/-- `stats::mean`: 0 for the empty list, otherwise sum divided by length. -/
noncomputable def statsMean : List ℝ → ℝ
  | [] => 0
  | data => data.sum / data.length

/-- `stats::median`: 0 for the empty list; otherwise sort ascending and
take the middle element (or the mean of the two middle elements). -/
noncomputable def statsMedian : List ℝ → ℝ
  | [] => 0
  | data =>
    let sorted := data.insertionSort (· ≤ ·)
    let mid := sorted.length / 2
    if sorted.length % 2 = 0 then (sorted.getD (mid - 1) 0 + sorted.getD mid 0) / 2
    else sorted.getD mid 0

/-! ## Measurement statistics (`crates/harness/src/measurement.rs`) -/

/-- `MeasurementStats`: derived statistics over a measurement list.
`min`/`max` are `u64` in the source, the rest `f64`. -/
structure MeasurementStats where
  count : Nat
  mean_compute_us : ℝ
  median_compute_us : ℝ
  min_compute_us : Nat
  max_compute_us : Nat
  stddev_compute_us : ℝ
  mean_total_us : ℝ
  result : String

/-- `MeasurementStats::from_measurements`: fails on the empty list;
otherwise mean/median/min/max of the compute times, population standard
deviation, mean total time, and the first measurement's result token. -/
noncomputable def MeasurementStats.from_measurements (measurements : List Measurement) :
    Except String MeasurementStats :=
  match measurements with
  | [] => .error "Cannot compute stats from empty measurements"
  | m0 :: rest =>
    let ms := m0 :: rest
    let compute_times : List ℝ := ms.map fun m => (m.compute_us : ℝ)
    let total_times : List ℝ := ms.map fun m => (m.total_us : ℝ)
    let mean_compute := statsMean compute_times
    let median_compute := statsMedian compute_times
    let min_compute := (rest.map fun m => m.compute_us).foldl Nat.min m0.compute_us
    let max_compute := (rest.map fun m => m.compute_us).foldl Nat.max m0.compute_us
    let variance :=
      (compute_times.map fun t => (t - mean_compute) ^ 2).sum / (compute_times.length : ℝ)
    let stddev := Real.sqrt variance
    let mean_total := statsMean total_times
    .ok ⟨ms.length, mean_compute, median_compute, min_compute, max_compute,
      stddev, mean_total, m0.result⟩

/-- `MeasurementStats::coefficient_of_variation`: stddev / mean when the
mean is positive, otherwise 0. -/
noncomputable def MeasurementStats.coefficient_of_variation (s : MeasurementStats) : ℝ :=
  if s.mean_compute_us > 0 then s.stddev_compute_us / s.mean_compute_us else 0

/-- `MeasurementStats::is_stable`: coefficient of variation strictly
below the threshold. -/
def MeasurementStats.is_stable (s : MeasurementStats) (cv_threshold : ℝ) : Prop :=
  s.coefficient_of_variation < cv_threshold

/-! ## Basic analysis statistics (`crates/analysis/src/basic.rs`)

These return `Option` (an explicit no-result) on degenerate input. -/

/-- `analysis::basic::mean`: `None` on the empty list. -/
noncomputable def basicMean : List ℝ → Option ℝ
  | [] => none
  | data => some (data.sum / data.length)

/-- `analysis::basic::median`: `None` on the empty list. -/
noncomputable def basicMedian : List ℝ → Option ℝ
  | [] => none
  | data =>
    let sorted := data.insertionSort (· ≤ ·)
    let mid := sorted.length / 2
    if sorted.length % 2 = 0 then some ((sorted.getD (mid - 1) 0 + sorted.getD mid 0) / 2)
    else some (sorted.getD mid 0)

/-- `analysis::basic::variance`: sample variance (dividing by `n - 1`),
`None` below 2 elements.  The `n - 1` is a `usize` subtraction in the
source, hence `Nat` subtraction before the cast. -/
noncomputable def basicVariance (data : List ℝ) : Option ℝ :=
  if data.length < 2 then none
  else
    (basicMean data).map fun m =>
      (data.map fun x => (x - m) ^ 2).sum / ((data.length - 1 : Nat) : ℝ)

/-! ## Frequentist analysis (`crates/analysis/src/frequentist.rs`) -/

/-- `AnovaResult`.  The `significant` flag is a boolean in the source;
over idealised reals it is the corresponding proposition. -/
structure AnovaResult where
  f_statistic : ℝ
  df_between : Nat
  df_within : Nat
  significant : Prop
  eta_squared : ℝ

/-- The per-group term of the between-group sum of squares:
`n_group as f64 * (mean(group)? - grand_mean)^2`. -/
noncomputable def ssBetweenTerm (grand_mean : ℝ) (group : List ℝ) : Option ℝ :=
  (basicMean group).map fun group_mean =>
    (group.length : ℝ) * (group_mean - grand_mean) ^ 2

/-- The per-group term of the within-group sum of squares:
`sum over the group of (value - mean(group)?)^2`. -/
noncomputable def ssWithinTerm (group : List ℝ) : Option ℝ :=
  (basicMean group).map fun group_mean =>
    (group.map fun value => (value - group_mean) ^ 2).sum

/-- A `let mut ss = acc; for group in groups { ss += f(group)? }` loop:
accumulates the `f`-terms left to right, propagating an early `None`. -/
noncomputable def optionSumLoop (f : List ℝ → Option ℝ) (acc : ℝ) :
    List (List ℝ) → Option ℝ
  | [] => some acc
  | g :: gs =>
    match f g with
    | some t => optionSumLoop f (acc + t) gs
    | none => none

/-- `anova_one_way`: one-way ANOVA.  `None` when there are fewer than 2
groups, when some group is empty (detected while pooling the data), when
`df_within = 0`, or when the within-group mean square is not positive. -/
noncomputable def anova_one_way (groups : List (List ℝ)) : Option AnovaResult :=
  if groups.length < 2 then none
  else if groups.any (fun g => g.isEmpty) then none
  else
    (basicMean groups.flatten).bind fun grand_mean =>
      let n_total := groups.flatten.length
      let k := groups.length
      (optionSumLoop (ssBetweenTerm grand_mean) 0 groups).bind fun ss_between =>
        (optionSumLoop ssWithinTerm 0 groups).bind fun ss_within =>
          let df_between := k - 1
          let df_within := n_total - k
          if df_within = 0 then none
          else
            let ms_between := ss_between / (df_between : ℝ)
            let ms_within := ss_within / (df_within : ℝ)
            if ms_within > 0 then
              let f_statistic := ms_between / ms_within
              let ss_total := ss_between + ss_within
              let eta_squared := if ss_total > 0 then ss_between / ss_total else 0
              some ⟨f_statistic, df_between, df_within, f_statistic > 3, eta_squared⟩
            else none

/-- `TTestResult`.  As for ANOVA, `significant` is the proposition the
source's boolean computes. -/
structure TTestResult where
  t_statistic : ℝ
  df : ℝ
  mean_diff : ℝ
  std_error : ℝ
  significant : Prop

/-- `t_test_welch`: Welch's unequal-variance t-test.  `None` when either
group has fewer than 2 points, when the standard error is 0, or when the
Welch-Satterthwaite denominator is not positive. -/
noncomputable def t_test_welch (group1 group2 : List ℝ) : Option TTestResult :=
  if group1.length < 2 ∨ group2.length < 2 then none
  else
    (basicMean group1).bind fun mean1 =>
      (basicMean group2).bind fun mean2 =>
        (basicVariance group1).bind fun var1 =>
          (basicVariance group2).bind fun var2 =>
            let n1 : ℝ := group1.length
            let n2 : ℝ := group2.length
            let se_diff := Real.sqrt (var1 / n1 + var2 / n2)
            if se_diff = 0 then none
            else
              let t_statistic := (mean1 - mean2) / se_diff
              let numerator := (var1 / n1 + var2 / n2) ^ 2
              let denominator := (var1 / n1) ^ 2 / (n1 - 1) + (var2 / n2) ^ 2 / (n2 - 1)
              if denominator > 0 then
                let df := numerator / denominator
                some ⟨t_statistic, df, mean1 - mean2, se_diff, |t_statistic| > 2⟩
              else none

/-! ## Theorems -/

/-- C10: the harness's `stats::mean` and `stats::median` are total,
returning the default `0.0` for the empty input list, while the analysis
crate's `mean` and `median` return an explicit no-result (`None`) on
empty input. -/
theorem stats_totals_vs_analysis_options :
    statsMean [] = 0 ∧ statsMedian [] = 0 ∧
    basicMean [] = none ∧ basicMedian [] = none :=
  ⟨rfl, rfl, rfl, rfl⟩

/-- C2 counterexample: a `JobStatus` in the terminal `Success` state is
moved back to `Running` by a further `mark_running` call, so terminal
states are not invariant under every transition operation. -/
theorem jobstatus_success_reverts_to_running :
    ((JobStatus.new (BuildJob.new "fibonacci" "baseline")).mark_success 100).is_complete
        = true ∧
    ((JobStatus.new (BuildJob.new "fibonacci" "baseline")).mark_success 100).is_success
        = true ∧
    (((JobStatus.new (BuildJob.new "fibonacci" "baseline")).mark_success 100).mark_running).result
        = BuildResult.Running ∧
    (((JobStatus.new (BuildJob.new "fibonacci" "baseline")).mark_success 100).mark_running).is_complete
        = false := by
  decide

/-- No `mark_*` operation ever produces the `Pending` state, so a status
whose result is not `Pending` keeps a non-`Pending` result under any
sequence of operations. -/
theorem applyJobOps_ne_pending (ops : List JobOp) :
    ∀ s : JobStatus, s.result ≠ BuildResult.Pending →
      (applyJobOps s ops).result ≠ BuildResult.Pending := by
  induction ops with
  | nil => exact fun s h => h
  | cons op ops ih =>
    intro s h
    show (applyJobOps (applyJobOp s op) ops).result ≠ BuildResult.Pending
    apply ih
    cases op <;>
      simp [applyJobOp, JobStatus.mark_running, JobStatus.mark_success,
        JobStatus.mark_failure]

/-- C2 (amended): once a `JobStatus` is `Success` or `Failure`, no
sequence of `mark_running`/`mark_success`/`mark_failure` calls ever
returns it to `Pending`; `mark_running` can however return it to
`Running`, since the transitions are unguarded. -/
theorem jobstatus_never_pending_again (s : JobStatus) (ops : List JobOp)
    (h : s.is_complete = true) :
    (applyJobOps s ops).result ≠ BuildResult.Pending := by
  apply applyJobOps_ne_pending
  intro hp
  rw [JobStatus.is_complete, hp] at h
  exact Bool.false_ne_true h

/-- C2 witness: a concrete completed status stays away from `Pending`
under a concrete operation sequence. -/
theorem jobstatus_never_pending_again_witness :
    (applyJobOps ((JobStatus.new (BuildJob.new "fibonacci" "baseline")).mark_success 100)
        [JobOp.markRunning, JobOp.markFailure "e"]).result ≠ BuildResult.Pending :=
  jobstatus_never_pending_again _ _ (by decide)

/-- C4: the coefficient of variation is `stddev / mean` for positive
mean and 0 for zero mean, and `is_stable` is the strict comparison
`CV < threshold`, so a stats value whose CV equals the threshold exactly
is not stable. -/
theorem coefficient_of_variation_spec (s : MeasurementStats) (t : ℝ) :
    (0 < s.mean_compute_us →
      s.coefficient_of_variation = s.stddev_compute_us / s.mean_compute_us) ∧
    (s.mean_compute_us = 0 → s.coefficient_of_variation = 0) ∧
    (s.is_stable t ↔ s.coefficient_of_variation < t) ∧
    (s.coefficient_of_variation = t → ¬ s.is_stable t) := by
  refine ⟨?_, ?_, Iff.rfl, ?_⟩
  · intro h
    simp [MeasurementStats.coefficient_of_variation, h]
  · intro h
    simp [MeasurementStats.coefficient_of_variation, h]
  · intro h hs
    have hs' : s.coefficient_of_variation < t := hs
    rw [h] at hs'
    exact lt_irrefl t hs'

/-- C4 witness: a stats value with mean 2 and stddev 1 has CV `1/2` and
is not stable at the threshold `1/2`. -/
theorem coefficient_of_variation_spec_witness :
    (⟨1, 2, 0, 0, 0, 1, 0, "x"⟩ : MeasurementStats).coefficient_of_variation = 1 / 2 ∧
    ¬ (⟨1, 2, 0, 0, 0, 1, 0, "x"⟩ : MeasurementStats).is_stable (1 / 2) := by
  have h := coefficient_of_variation_spec (⟨1, 2, 0, 0, 0, 1, 0, "x"⟩ : MeasurementStats) (1 / 2)
  have h1 : (⟨1, 2, 0, 0, 0, 1, 0, "x"⟩ : MeasurementStats).coefficient_of_variation = 1 / 2 := by
    rw [h.1 (by norm_num)]
  exact ⟨h1, h.2.2.2 h1⟩

/-- C3: `generate_matrix` is deterministic (any two generator states,
including the state left by a previous call, produce the same ordered
list), the total count lies in 80-120, the four named ids occur exactly
once each, and all ids are pairwise distinct. -/
theorem generate_matrix_contract (g₁ g₂ : ConfigGenerator) :
    (generate_matrix g₁).2 = (generate_matrix g₂).2 ∧
    (generate_matrix (generate_matrix g₁).1).2 = (generate_matrix g₁).2 ∧
    (80 ≤ (generate_matrix g₁).2.length ∧ (generate_matrix g₁).2.length ≤ 120) ∧
    ((generate_matrix g₁).2.map (fun c => c.id)).count "baseline" = 1 ∧
    ((generate_matrix g₁).2.map (fun c => c.id)).count "standard-release" = 1 ∧
    ((generate_matrix g₁).2.map (fun c => c.id)).count "min-opt" = 1 ∧
    ((generate_matrix g₁).2.map (fun c => c.id)).count "max-opt" = 1 ∧
    ((generate_matrix g₁).2.map (fun c => c.id)).Nodup := by
  have he : ∀ g : ConfigGenerator, generate_matrix g = generate_matrix [] := fun g => rfl
  rw [he g₁, he g₂]
  exact ⟨rfl, rfl, by decide, by decide, by decide, by decide, by decide, by decide⟩

/-- The push/break loops of the selectors only append to the already
selected configurations. -/
lemma pushLoop_extends (maxC : Nat) (p : OptimizationConfig → Bool) :
    ∀ (cs sel : List OptimizationConfig), ∃ t, pushLoop maxC p cs sel = sel ++ t := by
  intro cs
  induction cs with
  | nil => exact fun sel => ⟨[], (List.append_nil sel).symm⟩
  | cons c rest ih =>
    intro sel
    cases hpc : p c with
    | false =>
      obtain ⟨t, ht⟩ := ih sel
      exact ⟨t, by rw [pushLoop, hpc]; simpa using ht⟩
    | true =>
      by_cases hl : maxC ≤ (sel ++ [c]).length
      · refine ⟨[c], ?_⟩
        rw [pushLoop, hpc]
        show (if maxC ≤ (sel ++ [c]).length then sel ++ [c]
          else pushLoop maxC p rest (sel ++ [c])) = sel ++ [c]
        exact if_pos hl
      · obtain ⟨t, ht⟩ := ih (sel ++ [c])
        refine ⟨[c] ++ t, ?_⟩
        rw [pushLoop, hpc]
        show (if maxC ≤ (sel ++ [c]).length then sel ++ [c]
          else pushLoop maxC p rest (sel ++ [c])) = sel ++ ([c] ++ t)
        rw [if_neg hl, ht, List.append_assoc]

/-- The budget-checked fill loops of `select_balanced` only append. -/
lemma fillLoop_extends (maxC : Nat) (p : OptimizationConfig → Bool) :
    ∀ (cs sel : List OptimizationConfig), ∃ t, fillLoop maxC p cs sel = sel ++ t := by
  intro cs
  induction cs with
  | nil => exact fun sel => ⟨[], (List.append_nil sel).symm⟩
  | cons c rest ih =>
    intro sel
    by_cases hl : maxC ≤ sel.length
    · exact ⟨[], by rw [fillLoop, if_pos hl, List.append_nil]⟩
    · cases hpc : p c with
      | false =>
        obtain ⟨t, ht⟩ := ih sel
        exact ⟨t, by rw [fillLoop, if_neg hl, hpc]; simpa using ht⟩
      | true =>
        obtain ⟨t, ht⟩ := ih (sel ++ [c])
        refine ⟨[c] ++ t, ?_⟩
        rw [fillLoop, if_neg hl, hpc]
        show fillLoop maxC p rest (sel ++ [c]) = sel ++ ([c] ++ t)
        rw [ht, List.append_assoc]

/-- The keyword loop of `select_balanced` only appends. -/
lemma keywordLoop_extends (maxC : Nat) (configs : List OptimizationConfig) :
    ∀ (kws : List String) (sel : List OptimizationConfig),
      ∃ t, keywordLoop maxC configs kws sel = sel ++ t := by
  intro kws
  induction kws with
  | nil => exact fun sel => ⟨[], (List.append_nil sel).symm⟩
  | cons kw rest ih =>
    intro sel
    by_cases hl : maxC ≤ sel.length
    · exact ⟨[], by rw [keywordLoop, if_pos hl, List.append_nil]⟩
    · cases hf : configs.find? (fun c => strContains c.id kw) with
      | none =>
        obtain ⟨t, ht⟩ := ih sel
        exact ⟨t, by rw [keywordLoop, if_neg hl, hf]; exact ht⟩
      | some c =>
        obtain ⟨t, ht⟩ := ih (sel ++ [c])
        refine ⟨[c] ++ t, ?_⟩
        rw [keywordLoop, if_neg hl, hf]
        show keywordLoop maxC configs rest (sel ++ [c]) = sel ++ ([c] ++ t)
        rw [ht, List.append_assoc]

/-- An element of the first `n`-or-fewer positions survives `take n`. -/
lemma mem_take_of_append {α : Type} {c : α} {F t : List α} {n : Nat}
    (hc : c ∈ F) (hn : F.length ≤ n) : c ∈ (F ++ t).take n := by
  rw [List.take_append_eq_append_take, List.take_of_length_le hn]
  exact List.mem_append_left _ hc

/-- Baseline and standard-release configurations pass the priority-1
filter of every selection strategy. -/
lemma mem_baselineFilter {c : OptimizationConfig} {configs : List OptimizationConfig}
    (hc : c ∈ configs) (hid : c.id = "baseline" ∨ c.id = "standard-release") :
    c ∈ baselineFilter configs := by
  rw [baselineFilter, List.mem_filter]
  refine ⟨hc, ?_⟩
  rcases hid with h | h <;> simp [h]

/-- C1 (amended): when the clamped budget `max K 1` is at least the
number of configurations, every configuration whose id is `baseline` or
`standard-release` appears in the selection, for each of the three
strategies.  (Configurations matching none of a strategy's id filters
are omitted even then, so the whole input list is not returned in
general; see the counterexample.) -/
theorem pathfinder_keeps_baselines (strat : PathfinderStrategy) (K : Nat)
    (configs : List OptimizationConfig) (hlen : configs.length ≤ Nat.max K 1) :
    ∀ c ∈ configs, (c.id = "baseline" ∨ c.id = "standard-release") →
      c ∈ (PathfinderSelector.new strat K).select configs := by
  intro c hc hid
  have hF : c ∈ baselineFilter configs := mem_baselineFilter hc hid
  have hFlen : (baselineFilter configs).length ≤ Nat.max K 1 :=
    le_trans (List.length_filter_le _ _) hlen
  cases strat with
  | BaselineAndExtremes =>
    obtain ⟨t, ht⟩ := pushLoop_extends (Nat.max K 1)
      (fun c => strStartsWith c.id "extreme-" || strContains c.id "max-")
      configs (baselineFilter configs)
    show c ∈ (pushLoop (Nat.max K 1)
      (fun c => strStartsWith c.id "extreme-" || strContains c.id "max-")
      configs (baselineFilter configs)).take (Nat.max K 1)
    rw [ht]
    exact mem_take_of_append hF hFlen
  | SingleFactorCoverage =>
    obtain ⟨t, ht⟩ := pushLoop_extends (Nat.max K 1)
      (fun c => strStartsWith c.id "opt-" || strStartsWith c.id "lto-" ||
        strStartsWith c.id "codegen-" || strStartsWith c.id "pgo-" ||
        strStartsWith c.id "cpu-" || strStartsWith c.id "strip-")
      configs (baselineFilter configs)
    show c ∈ (pushLoop (Nat.max K 1)
      (fun c => strStartsWith c.id "opt-" || strStartsWith c.id "lto-" ||
        strStartsWith c.id "codegen-" || strStartsWith c.id "pgo-" ||
        strStartsWith c.id "cpu-" || strStartsWith c.id "strip-")
      configs (baselineFilter configs)).take (Nat.max K 1)
    rw [ht]
    exact mem_take_of_append hF hFlen
  | Balanced =>
    obtain ⟨t1, h1⟩ := keywordLoop_extends (Nat.max K 1) configs single_factor_keywords
      (baselineFilter configs)
    obtain ⟨t2, h2⟩ := fillLoop_extends (Nat.max K 1)
      (fun c => strContains c.id "size-" || strStartsWith c.id "opt-s") configs
      (keywordLoop (Nat.max K 1) configs single_factor_keywords (baselineFilter configs))
    obtain ⟨t3, h3⟩ := fillLoop_extends (Nat.max K 1)
      (fun c => strContains c.id "perf-" || strContains c.id "max-") configs
      (fillLoop (Nat.max K 1)
        (fun c => strContains c.id "size-" || strStartsWith c.id "opt-s") configs
        (keywordLoop (Nat.max K 1) configs single_factor_keywords (baselineFilter configs)))
    obtain ⟨t4, h4⟩ := fillLoop_extends (Nat.max K 1)
      (fun c => strStartsWith c.id "extreme-") configs
      (fillLoop (Nat.max K 1)
        (fun c => strContains c.id "perf-" || strContains c.id "max-") configs
        (fillLoop (Nat.max K 1)
          (fun c => strContains c.id "size-" || strStartsWith c.id "opt-s") configs
          (keywordLoop (Nat.max K 1) configs single_factor_keywords (baselineFilter configs))))
    show c ∈ (fillLoop (Nat.max K 1)
      (fun c => strStartsWith c.id "extreme-") configs
      (fillLoop (Nat.max K 1)
        (fun c => strContains c.id "perf-" || strContains c.id "max-") configs
        (fillLoop (Nat.max K 1)
          (fun c => strContains c.id "size-" || strStartsWith c.id "opt-s") configs
          (keywordLoop (Nat.max K 1) configs single_factor_keywords
            (baselineFilter configs))))).take (Nat.max K 1)
    rw [h4, h3, h2, h1, List.append_assoc, List.append_assoc, List.append_assoc]
    exact mem_take_of_append hF hFlen

/-- C1 witness: with a single baseline configuration and budget 2 the
baseline is selected under the default strategy. -/
theorem pathfinder_keeps_baselines_witness :
    OptimizationConfig.baseline ∈
      (PathfinderSelector.new PathfinderStrategy.Balanced 2).select
        [OptimizationConfig.baseline] :=
  pathfinder_keeps_baselines PathfinderStrategy.Balanced 2 _ (by decide) _
    (by decide) (Or.inl rfl)

/-- C1 counterexample: a configuration whose id matches no selection
filter is dropped by all three strategies even though the budget (5,
clamped from 5) exceeds the input length (1), so `select` does not
return the whole list on over-request. -/
theorem pathfinder_omits_unmatched_configs :
    ((PathfinderSelector.new PathfinderStrategy.BaselineAndExtremes 5).select
        [⟨"foo", .O0, .Off, .Sixteen, .Off, .Generic, .None⟩] = [] ∧
      (PathfinderSelector.new PathfinderStrategy.SingleFactorCoverage 5).select
        [⟨"foo", .O0, .Off, .Sixteen, .Off, .Generic, .None⟩] = [] ∧
      (PathfinderSelector.new PathfinderStrategy.Balanced 5).select
        [⟨"foo", .O0, .Off, .Sixteen, .Off, .Generic, .None⟩] = []) ∧
    ([(⟨"foo", .O0, .Off, .Sixteen, .Off, .Generic, .None⟩ : OptimizationConfig)].length
        ≤ Nat.max 5 1) := by
  decide

/-- None of the ten fixed benchmark names, with the `-` separator
appended, is a prefix of another one: job ids cannot collide across
benchmarks. -/
lemma benchmarks_sep_not_proper : ∀ b1 ∈ BENCHMARKS, ∀ b2 ∈ BENCHMARKS,
    (b1 ++ "-").data.isPrefixOf (b2 ++ "-").data = true → b1 = b2 := by
  decide

/-- The job id `benchmark ++ "-" ++ config_id` determines the pair, for
benchmarks drawn from the fixed list. -/
lemma job_id_inj {b1 b2 c1 c2 : String} (h1 : b1 ∈ BENCHMARKS) (h2 : b2 ∈ BENCHMARKS)
    (h : b1 ++ "-" ++ c1 = b2 ++ "-" ++ c2) : b1 = b2 ∧ c1 = c2 := by
  have hd : (b1 ++ "-").data ++ c1.data = (b2 ++ "-").data ++ c2.data := by
    have := congrArg String.data h
    rwa [String.data_append, String.data_append] at this
  have hpre : (b1 ++ "-").data.isPrefixOf (b2 ++ "-").data = true ∨
      (b2 ++ "-").data.isPrefixOf (b1 ++ "-").data = true := by
    rcases List.append_eq_append_iff.mp hd with ⟨a, ha, _⟩ | ⟨a, ha, _⟩
    · left
      rw [ List.isPrefixOf_iff_prefix]
      exact ⟨a, ha.symm⟩
    · right
      rw [ List.isPrefixOf_iff_prefix]
      exact ⟨a, ha.symm⟩
  have hb : b1 = b2 := by
    rcases hpre with hp | hp
    · exact benchmarks_sep_not_proper b1 h1 b2 h2 hp
    · exact (benchmarks_sep_not_proper b2 h2 b1 h1 hp).symm
  subst hb
  refine ⟨rfl, ?_⟩
  have hc : c1.data = c2.data := List.append_cancel_left hd
  cases c1; cases c2; exact congrArg String.mk hc

/-- String append is left-cancellative. -/
lemma str_append_cancel_left {s t1 t2 : String} (h : s ++ t1 = s ++ t2) : t1 = t2 := by
  have hd : s.data ++ t1.data = s.data ++ t2.data := by
    have := congrArg String.data h
    rwa [String.data_append, String.data_append] at this
  have := List.append_cancel_left hd
  cases t1; cases t2; exact congrArg String.mk this

/-- C9: over configurations with pairwise-distinct ids,
`BuildMatrix::generate` produces exactly `10 * C` jobs (one per
benchmark/configuration pair), the job ids are pairwise distinct, each
job id is the pure function `benchmark ++ "-" ++ config_id` of the pair,
and two jobs built by `BuildJob::new` are equal iff their
(benchmark, config id) pairs are equal. -/
theorem build_matrix_generate_spec (configs : List OptimizationConfig)
    (h : (configs.map (fun c => c.id)).Nodup) :
    (BuildMatrix.generate configs).jobs.length = 10 * configs.length ∧
    ((BuildMatrix.generate configs).jobs.map (fun j => j.job_id)).Nodup ∧
    (∀ b ∈ BENCHMARKS, ∀ cfg ∈ configs,
      BuildJob.new b cfg.id ∈ (BuildMatrix.generate configs).jobs) ∧
    (∀ job ∈ (BuildMatrix.generate configs).jobs,
      job.job_id = job.benchmark ++ "-" ++ job.config_id) ∧
    (∀ b1 c1 b2 c2 : String, BuildJob.new b1 c1 = BuildJob.new b2 c2 ↔ b1 = b2 ∧ c1 = c2) := by
  refine ⟨?_, ?_, ?_, ?_, ?_⟩
  · simp [BuildMatrix.generate, List.length_flatMap, BENCHMARKS]
    omega
  · have hmap : (BuildMatrix.generate configs).jobs.map (fun j => j.job_id) =
        BENCHMARKS.flatMap (fun b => (configs.map (fun c => c.id)).map
          (fun cid => b ++ "-" ++ cid)) := by
      simp [BuildMatrix.generate, List.map_flatMap, List.map_map, BuildJob.new,
        Function.comp]
      rfl
    rw [hmap]
    rw [List.nodup_flatMap]
    constructor
    · intro b _
      apply h.map
      intro x y hxy
      exact str_append_cancel_left hxy
    · have hBn : BENCHMARKS.Nodup := by decide
      refine hBn.imp_of_mem ?_
      intro b1 b2 hb1 hb2 hne x hx1 hx2
      rcases List.mem_map.mp hx1 with ⟨cid1, _, hcx1⟩
      rcases List.mem_map.mp hx2 with ⟨cid2, _, hcx2⟩
      exact hne (job_id_inj hb1 hb2 (hcx1.trans hcx2.symm)).1
  · intro b hb cfg hcfg
    rw [BuildMatrix.generate]
    exact List.mem_flatMap.mpr ⟨b, hb, List.mem_map_of_mem _ hcfg⟩
  · intro job hjob
    rw [BuildMatrix.generate] at hjob
    rcases List.mem_flatMap.mp hjob with ⟨b, _, hj⟩
    rcases List.mem_map.mp hj with ⟨cfg, _, hje⟩
    rw [← hje]
    rfl
  · intro b1 c1 b2 c2
    constructor
    · intro he
      exact ⟨congrArg (fun j => j.benchmark) he, congrArg (fun j => j.config_id) he⟩
    · rintro ⟨rfl, rfl⟩
      rfl

/-- C9 witness: two distinct configurations give 20 jobs. -/
theorem build_matrix_generate_spec_witness :
    (BuildMatrix.generate
      [OptimizationConfig.baseline, OptimizationConfig.standard_release]).jobs.length
      = 10 * 2 :=
  (build_matrix_generate_spec
    [OptimizationConfig.baseline, OptimizationConfig.standard_release] (by decide)).1

deriving instance DecidableEq for Except

/-- The last occurrence semantics of the parsing loop: the final value
of one of the three mutable locals, starting from `init`, after scanning
`lines` (each matching line overwrites the local with its parse). -/
def lastParsed {α : Type} (p : String → Bool) (parse : String → Option α) :
    Option α → List String → Option α
  | init, [] => init
  | init, l :: rest => lastParsed p parse (if p l then parse l else init) rest

/-- A line starting with a nonempty pattern starts with its first character. -/
lemma startsWith_head {l pat : String} {a : Char} {ps : List Char}
    (hpat : pat.data = a :: ps) (h : strStartsWith l pat = true) :
    l.data.head? = some a := by
  rw [strStartsWith, hpat] at h
  cases hd : l.data with
  | nil => rw [hd] at h; exact absurd h (by simp [List.isPrefixOf])
  | cons c cs =>
    rw [hd] at h
    simp only [List.isPrefixOf, Bool.and_eq_true, beq_iff_eq] at h
    simp [h.1]

/-- A `STARTUP_TIME_US:` line is neither a `COMPUTE_TIME_US:` nor a
`RESULT:` line. -/
lemma startup_excl (l : String) (h : isStartupLine l = true) :
    isComputeLine l = false ∧ isResultLine l = false := by
  have hh := startsWith_head
    (rfl : ("STARTUP_TIME_US:" : String).data = 'S' :: "TARTUP_TIME_US:".data) h
  constructor
  · cases hc : isComputeLine l with
    | false => rfl
    | true =>
      have := startsWith_head
        (rfl : ("COMPUTE_TIME_US:" : String).data = 'C' :: "OMPUTE_TIME_US:".data) hc
      rw [hh] at this
      exact absurd this (by decide)
  · cases hc : isResultLine l with
    | false => rfl
    | true =>
      have := startsWith_head
        (rfl : ("RESULT:" : String).data = 'R' :: "ESULT:".data) hc
      rw [hh] at this
      exact absurd this (by decide)

/-- A `COMPUTE_TIME_US:` line is not a `RESULT:` line. -/
lemma compute_excl (l : String) (h : isComputeLine l = true) : isResultLine l = false := by
  have hh := startsWith_head
    (rfl : ("COMPUTE_TIME_US:" : String).data = 'C' :: "OMPUTE_TIME_US:".data) h
  cases hc : isResultLine l with
  | false => rfl
  | true =>
    have := startsWith_head
      (rfl : ("RESULT:" : String).data = 'R' :: "ESULT:".data) hc
    rw [hh] at this
    exact absurd this (by decide)

/-- The parsing fold decomposes into three independent last-wins scans,
because the three label prefixes are mutually exclusive. -/
lemma fromOutput_foldl_eq (lines : List String) : ∀ acc : ParseState,
    lines.foldl fromOutputStep acc =
      (lastParsed isStartupLine parseTimeField acc.1 lines,
       lastParsed isComputeLine parseTimeField acc.2.1 lines,
       lastParsed isResultLine parseResultField acc.2.2 lines) := by
  induction lines with
  | nil => intro acc; rfl
  | cons l rest ih =>
    intro acc
    rw [List.foldl_cons, ih (fromOutputStep acc l)]
    show _ = (lastParsed isStartupLine parseTimeField
        (if isStartupLine l then parseTimeField l else acc.1) rest,
      lastParsed isComputeLine parseTimeField
        (if isComputeLine l then parseTimeField l else acc.2.1) rest,
      lastParsed isResultLine parseResultField
        (if isResultLine l then parseResultField l else acc.2.2) rest)
    cases h1 : isStartupLine l with
    | true =>
      obtain ⟨h2, h3⟩ := startup_excl l h1
      simp [fromOutputStep, h1, h2, h3]
    | false =>
      cases h2 : isComputeLine l with
      | true =>
        have h3 := compute_excl l h2
        simp [fromOutputStep, h1, h2, h3]
      | false =>
        cases h3 : isResultLine l with
        | true => simp [fromOutputStep, h1, h2, h3]
        | false => simp [fromOutputStep, h1, h2, h3]

/-- C7 (amended): `from_output` succeeds iff, for each of the three
labels, the last line starting with that label carries a parsable value
(later lines overwrite earlier ones, lines are scanned in any order
relative to each other, and unrelated lines are ignored); on success the
measurement's fields are exactly those last parsed values and the total
time is computed as startup plus compute, and otherwise the function
returns the parse error. -/
theorem from_output_spec (lines : List String) :
    (∀ m : Measurement, Measurement.from_output lines = .ok m ↔
      (lastParsed isStartupLine parseTimeField none lines = some m.startup_us ∧
       lastParsed isComputeLine parseTimeField none lines = some m.compute_us ∧
       lastParsed isResultLine parseResultField none lines = some m.result ∧
       m.total_us = m.startup_us + m.compute_us)) ∧
    (Measurement.from_output lines = .error "Failed to parse measurement output" ↔
      (lastParsed isStartupLine parseTimeField none lines = none ∨
       lastParsed isComputeLine parseTimeField none lines = none ∨
       lastParsed isResultLine parseResultField none lines = none)) := by
  have hfo : Measurement.from_output lines =
      (match (lastParsed isStartupLine parseTimeField none lines,
              lastParsed isComputeLine parseTimeField none lines,
              lastParsed isResultLine parseResultField none lines) with
        | (some s, some c, some r) => Except.ok (Measurement.new s c r)
        | _ => Except.error "Failed to parse measurement output") := by
    unfold Measurement.from_output
    rw [fromOutput_foldl_eq lines (none, none, none)]
    rfl
  rcases hS : lastParsed isStartupLine parseTimeField none lines with _ | s <;>
    rcases hC : lastParsed isComputeLine parseTimeField none lines with _ | c <;>
      rcases hR : lastParsed isResultLine parseResultField none lines with _ | r <;>
        rw [hS, hC, hR] at hfo <;>
        refine ⟨fun m => ?_, ?_⟩ <;>
        rw [hfo] <;>
        simp
  case _ =>
    cases m with
    | mk a b tt res =>
      simp only [Measurement.new, Measurement.mk.injEq]
      constructor
      · rintro ⟨rfl, rfl, rfl, rfl⟩
        exact ⟨rfl, rfl, rfl, rfl⟩
      · rintro ⟨rfl, rfl, rfl, ht⟩
        exact ⟨rfl, rfl, ht.symm, rfl⟩

/-- C7 witness: a well-formed three-line report with an unrelated line
parses, with the total computed as startup plus compute. -/
theorem from_output_spec_witness :
    Measurement.from_output
        ["Some debug output", "STARTUP_TIME_US: 100", "COMPUTE_TIME_US: 500", "RESULT: 42"]
      = .ok (Measurement.new 100 500 "42") :=
  ((from_output_spec
      ["Some debug output", "STARTUP_TIME_US: 100", "COMPUTE_TIME_US: 500", "RESULT: 42"]).1
    (Measurement.new 100 500 "42")).mpr (by decide)

/-- C7 counterexample: the raw text contains a parsable line for every
label, yet `from_output` fails, because a later unparsable
`STARTUP_TIME_US:` line overwrites the earlier valid one.  This refutes
the claim that success occurs exactly when such lines exist somewhere in
the text. -/
theorem from_output_not_existential :
    Measurement.from_output
        ["STARTUP_TIME_US: 100", "STARTUP_TIME_US: x", "COMPUTE_TIME_US: 500", "RESULT: 42"]
      = .error "Failed to parse measurement output" ∧
    (isStartupLine "STARTUP_TIME_US: 100" = true ∧
      parseTimeField "STARTUP_TIME_US: 100" = some 100) ∧
    (isComputeLine "COMPUTE_TIME_US: 500" = true ∧
      parseTimeField "COMPUTE_TIME_US: 500" = some 500) ∧
    (isResultLine "RESULT: 42" = true ∧
      parseResultField "RESULT: 42" = some "42") := by
  decide

lemma statsMean_eq (l : List ℝ) (h : l ≠ []) : statsMean l = l.sum / l.length := by
  cases l with
  | nil => exact absurd rfl h
  | cons a t => rfl

lemma foldl_min_spec (l : List Nat) : ∀ a : Nat,
    (l.foldl Nat.min a = a ∨ l.foldl Nat.min a ∈ l) ∧
    l.foldl Nat.min a ≤ a ∧ ∀ x ∈ l, l.foldl Nat.min a ≤ x := by
  induction l with
  | nil => intro a; exact ⟨Or.inl rfl, le_refl a, by simp⟩
  | cons b t ih =>
    intro a
    obtain ⟨hmem, hle, hall⟩ := ih (Nat.min a b)
    rw [List.foldl_cons]
    refine ⟨?_, ?_, ?_⟩
    · rcases hmem with h | h
      · rcases min_choice a b with hm | hm
        · exact Or.inl (h.trans hm)
        · refine Or.inr ?_
          rw [h]
          show a ⊓ b ∈ b :: t
          rw [hm]
          exact List.mem_cons_self b t
      · exact Or.inr (List.mem_cons_of_mem b h)
    · exact le_trans hle (min_le_left a b)
    · intro x hx
      rcases List.mem_cons.mp hx with rfl | hx
      · exact le_trans hle (min_le_right a x)
      · exact hall x hx

lemma foldl_max_spec (l : List Nat) : ∀ a : Nat,
    (l.foldl Nat.max a = a ∨ l.foldl Nat.max a ∈ l) ∧
    a ≤ l.foldl Nat.max a ∧ ∀ x ∈ l, x ≤ l.foldl Nat.max a := by
  induction l with
  | nil => intro a; exact ⟨Or.inl rfl, le_refl a, by simp⟩
  | cons b t ih =>
    intro a
    obtain ⟨hmem, hle, hall⟩ := ih (Nat.max a b)
    rw [List.foldl_cons]
    refine ⟨?_, ?_, ?_⟩
    · rcases hmem with h | h
      · rcases max_choice a b with hm | hm
        · exact Or.inl (h.trans hm)
        · refine Or.inr ?_
          rw [h]
          show a ⊔ b ∈ b :: t
          rw [hm]
          exact List.mem_cons_self b t
      · exact Or.inr (List.mem_cons_of_mem b h)
    · exact le_trans (le_max_left a b) hle
    · intro x hx
      rcases List.mem_cons.mp hx with rfl | hx
      · exact le_trans (le_max_right a x) hle
      · exact hall x hx

theorem from_measurements_spec (ms : List Measurement) :
    (MeasurementStats.from_measurements ms
        = .error "Cannot compute stats from empty measurements" ↔ ms = []) ∧
    (∀ st, MeasurementStats.from_measurements ms = .ok st →
      st.count = ms.length ∧
      st.mean_compute_us = (ms.map fun m => (m.compute_us : ℝ)).sum / ms.length ∧
      st.median_compute_us = statsMedian (ms.map fun m => (m.compute_us : ℝ)) ∧
      st.min_compute_us ∈ ms.map (fun m => m.compute_us) ∧
      (∀ x ∈ ms.map (fun m => m.compute_us), st.min_compute_us ≤ x) ∧
      st.max_compute_us ∈ ms.map (fun m => m.compute_us) ∧
      (∀ x ∈ ms.map (fun m => m.compute_us), x ≤ st.max_compute_us) ∧
      st.stddev_compute_us =
        Real.sqrt ((ms.map fun m => ((m.compute_us : ℝ) - st.mean_compute_us) ^ 2).sum
          / ms.length) ∧
      st.mean_total_us = (ms.map fun m => (m.total_us : ℝ)).sum / ms.length ∧
      ms.head?.map (fun m0 => m0.result) = some st.result) := by
  cases ms with
  | nil =>
    constructor
    · simp [MeasurementStats.from_measurements]
    · intro st h
      simp [MeasurementStats.from_measurements] at h
  | cons m0 rest =>
    constructor
    · simp [MeasurementStats.from_measurements]
    · intro st h
      simp only [MeasurementStats.from_measurements, Except.ok.injEq] at h
      subst h
      refine ⟨rfl, ?_, rfl, ?_, ?_, ?_, ?_, ?_, ?_, rfl⟩
      · show statsMean ((m0 :: rest).map fun m => (m.compute_us : ℝ)) = _
        rw [statsMean_eq _ (by simp), List.length_map]
      · show List.foldl Nat.min m0.compute_us (rest.map fun m => m.compute_us)
            ∈ (m0 :: rest).map (fun m => m.compute_us)
        rw [List.map_cons]
        rcases (foldl_min_spec (rest.map fun m => m.compute_us) m0.compute_us).1 with h | h
        · rw [h]
          exact List.mem_cons_self _ _
        · exact List.mem_cons_of_mem _ h
      · intro x hx
        rcases List.mem_cons.mp (List.map_cons _ m0 rest ▸ hx) with rfl | hx2
        · exact (foldl_min_spec (rest.map fun m => m.compute_us) m0.compute_us).2.1
        · exact (foldl_min_spec (rest.map fun m => m.compute_us) m0.compute_us).2.2 _ hx2
      · show List.foldl Nat.max m0.compute_us (rest.map fun m => m.compute_us)
            ∈ (m0 :: rest).map (fun m => m.compute_us)
        rw [List.map_cons]
        rcases (foldl_max_spec (rest.map fun m => m.compute_us) m0.compute_us).1 with h | h
        · rw [h]
          exact List.mem_cons_self _ _
        · exact List.mem_cons_of_mem _ h
      · intro x hx
        rcases List.mem_cons.mp (List.map_cons _ m0 rest ▸ hx) with rfl | hx2
        · exact (foldl_max_spec (rest.map fun m => m.compute_us) m0.compute_us).2.1
        · exact (foldl_max_spec (rest.map fun m => m.compute_us) m0.compute_us).2.2 _ hx2
      · show Real.sqrt _ = _
        rw [List.map_map, List.length_map]
        rfl
      · show statsMean ((m0 :: rest).map fun m => (m.total_us : ℝ)) = _
        rw [statsMean_eq _ (by simp), List.length_map]

theorem from_measurements_spec_witness :
    MeasurementStats.from_measurements []
        = .error "Cannot compute stats from empty measurements" ∧
    ∀ st, MeasurementStats.from_measurements
        [Measurement.new 10 100 "42", Measurement.new 10 110 "42", Measurement.new 10 90 "42"]
        = .ok st →
      st.count = 3 ∧ st.mean_compute_us = 100 ∧ st.median_compute_us = 100 ∧
      st.min_compute_us = 90 ∧ st.max_compute_us = 110 ∧ st.result = "42" := by
  constructor
  · exact (from_measurements_spec []).1.mpr rfl
  · intro st h
    simp only [MeasurementStats.from_measurements, Except.ok.injEq] at h
    subst h
    refine ⟨rfl, ?_, ?_, by decide, by decide, rfl⟩
    · norm_num [statsMean, Measurement.new, List.sum_cons]
    · norm_num [statsMedian, Measurement.new, List.insertionSort, List.orderedInsert]

/-- `analysis::basic::mean` on a nonempty list is the sum over the length. -/
lemma basicMean_eq (l : List ℝ) (h : l ≠ []) : basicMean l = some (l.sum / l.length) := by
  cases l with
  | nil => exact absurd rfl h
  | cons a t => rfl

/-- Modelled from the spec wording: the grand mean over all pooled values. -/
noncomputable def grandMeanSpec (groups : List (List ℝ)) : ℝ :=
  groups.flatten.sum / groups.flatten.length

/-- Modelled from the spec wording: between-group sum of squares
`Σ group_size × (group_mean − grand_mean)²`. -/
noncomputable def ssBetweenSpec (groups : List (List ℝ)) : ℝ :=
  (groups.map fun g => (g.length : ℝ) * (g.sum / g.length - grandMeanSpec groups) ^ 2).sum

/-- Modelled from the spec wording: within-group sum of squares
`Σ Σ (value − group_mean)²`. -/
noncomputable def ssWithinSpec (groups : List (List ℝ)) : ℝ :=
  (groups.map fun g => (g.map fun v => (v - g.sum / g.length) ^ 2).sum).sum

/-- The accumulation loop, when every term is defined, sums the terms. -/
lemma optionSumLoop_eq (f : List ℝ → Option ℝ) (t : List ℝ → ℝ) :
    ∀ (gs : List (List ℝ)), (∀ g ∈ gs, f g = some (t g)) →
      ∀ acc : ℝ, optionSumLoop f acc gs = some (acc + (gs.map t).sum) := by
  intro gs
  induction gs with
  | nil => intro _ acc; simp [optionSumLoop]
  | cons g rest ih =>
    intro h acc
    rw [optionSumLoop, h g (List.mem_cons_self g rest)]
    show optionSumLoop f (acc + t g) rest = some (acc + (List.map t (g :: rest)).sum)
    rw [ih (fun x hx => h x (List.mem_cons_of_mem g hx)) (acc + t g)]
    rw [List.map_cons, List.sum_cons, add_assoc]

/-- The between-group term on a nonempty group. -/
lemma ssBetweenTerm_eq (grand : ℝ) (g : List ℝ) (h : g ≠ []) :
    ssBetweenTerm grand g = some ((g.length : ℝ) * (g.sum / g.length - grand) ^ 2) := by
  rw [ssBetweenTerm, basicMean_eq g h, Option.map_some']

/-- The within-group term on a nonempty group. -/
lemma ssWithinTerm_eq (g : List ℝ) (h : g ≠ []) :
    ssWithinTerm g = some ((g.map fun v => (v - g.sum / g.length) ^ 2).sum) := by
  rw [ssWithinTerm, basicMean_eq g h, Option.map_some']

/-- A sum of sums of squares is nonnegative. -/
lemma ssWithinSpec_nonneg (groups : List (List ℝ)) : 0 ≤ ssWithinSpec groups := by
  apply List.sum_nonneg
  intro x hx
  rcases List.mem_map.mp hx with ⟨g, _, rfl⟩
  apply List.sum_nonneg
  intro y hy
  rcases List.mem_map.mp hy with ⟨v, _, rfl⟩
  exact sq_nonneg _

/-- C5: `anova_one_way` returns no result exactly when there are fewer
than 2 groups, some group is empty, `df_within = n_total - k` is 0, or
the within-group mean square `SSW / df_within` is 0; otherwise it
returns `F = MS_between / MS_within` built from
`SSB = Σ group_size × (group_mean − grand_mean)²` and
`SSW = Σ Σ (value − group_mean)²`, with `df_between = k − 1`,
`df_within = n_total − k`, `eta_squared = SSB/(SSB+SSW)` (0 when the
total sum of squares is 0), and `significant` holds iff `F > 3`. -/
theorem anova_one_way_spec (groups : List (List ℝ)) :
    (anova_one_way groups = none ↔
      (groups.length < 2 ∨ (∃ g ∈ groups, g = []) ∨
       groups.flatten.length - groups.length = 0 ∨
       ssWithinSpec groups / ((groups.flatten.length - groups.length : Nat) : ℝ) = 0)) ∧
    (∀ r, anova_one_way groups = some r →
      r.f_statistic = (ssBetweenSpec groups / ((groups.length - 1 : Nat) : ℝ)) /
        (ssWithinSpec groups / ((groups.flatten.length - groups.length : Nat) : ℝ)) ∧
      r.df_between = groups.length - 1 ∧
      r.df_within = groups.flatten.length - groups.length ∧
      r.eta_squared = (if ssBetweenSpec groups + ssWithinSpec groups > 0 then
        ssBetweenSpec groups / (ssBetweenSpec groups + ssWithinSpec groups) else 0) ∧
      (r.significant ↔ r.f_statistic > 3)) := by
  by_cases h2 : groups.length < 2
  · have hav : anova_one_way groups = none := by rw [anova_one_way, if_pos h2]
    constructor
    · exact ⟨fun _ => Or.inl h2, fun _ => hav⟩
    · intro r hr
      rw [hav] at hr
      exact absurd hr (by simp)
  · by_cases hE : groups.any (fun g => g.isEmpty) = true
    · have hav : anova_one_way groups = none := by
        rw [anova_one_way, if_neg h2, if_pos hE]
      have hex : ∃ g ∈ groups, g = [] := by
        rcases List.any_eq_true.mp hE with ⟨g, hg, hge⟩
        exact ⟨g, hg, List.isEmpty_iff.mp hge⟩
      constructor
      · exact ⟨fun _ => Or.inr (Or.inl hex), fun _ => hav⟩
      · intro r hr
        rw [hav] at hr
        exact absurd hr (by simp)
    · have hNE : ∀ g ∈ groups, g ≠ [] := by
        intro g hg hgnil
        exact hE (List.any_eq_true.mpr ⟨g, hg, by rw [hgnil]; rfl⟩)
      have hflat : groups.flatten ≠ [] := by
        cases groups with
        | nil => simp at h2
        | cons g0 rest =>
          rw [List.flatten_cons]
          exact List.append_ne_nil_of_left_ne_nil (hNE g0 (List.mem_cons_self _ _)) _
      have hgm : basicMean groups.flatten = some (grandMeanSpec groups) :=
        basicMean_eq _ hflat
      have hssb : optionSumLoop (ssBetweenTerm (grandMeanSpec groups)) 0 groups
          = some (ssBetweenSpec groups) := by
        rw [optionSumLoop_eq (ssBetweenTerm (grandMeanSpec groups))
          (fun g => (g.length : ℝ) * (g.sum / g.length - grandMeanSpec groups) ^ 2)
          groups (fun g hg => ssBetweenTerm_eq _ g (hNE g hg)) 0, zero_add]
        rfl
      have hssw : optionSumLoop ssWithinTerm 0 groups = some (ssWithinSpec groups) := by
        rw [optionSumLoop_eq ssWithinTerm
          (fun g => (g.map fun v => (v - g.sum / g.length) ^ 2).sum)
          groups (fun g hg => ssWithinTerm_eq g (hNE g hg)) 0, zero_add]
        rfl
      have hav : anova_one_way groups =
          (if groups.flatten.length - groups.length = 0 then none
           else if ssWithinSpec groups
              / ((groups.flatten.length - groups.length : Nat) : ℝ) > 0 then
             some ⟨(ssBetweenSpec groups / ((groups.length - 1 : Nat) : ℝ)) /
                 (ssWithinSpec groups / ((groups.flatten.length - groups.length : Nat) : ℝ)),
               groups.length - 1, groups.flatten.length - groups.length,
               (ssBetweenSpec groups / ((groups.length - 1 : Nat) : ℝ)) /
                 (ssWithinSpec groups
                   / ((groups.flatten.length - groups.length : Nat) : ℝ)) > 3,
               if ssBetweenSpec groups + ssWithinSpec groups > 0 then
                 ssBetweenSpec groups / (ssBetweenSpec groups + ssWithinSpec groups) else 0⟩
           else none) := by
        rw [anova_one_way, if_neg h2, if_neg hE, hgm, Option.some_bind, hssb,
          Option.some_bind, hssw, Option.some_bind]
      by_cases hdf : groups.flatten.length - groups.length = 0
      · rw [if_pos hdf] at hav
        constructor
        · exact ⟨fun _ => Or.inr (Or.inr (Or.inl hdf)), fun _ => hav⟩
        · intro r hr
          rw [hav] at hr
          exact absurd hr (by simp)
      · rw [if_neg hdf] at hav
        by_cases hms : ssWithinSpec groups
            / ((groups.flatten.length - groups.length : Nat) : ℝ) > 0
        · rw [if_pos hms] at hav
          constructor
          · constructor
            · intro hnone
              rw [hav] at hnone
              exact absurd hnone (by simp)
            · rintro (h | h | h | h)
              · exact absurd h h2
              · rcases h with ⟨g, hg, hgnil⟩
                exact absurd hgnil (hNE g hg)
              · exact absurd h hdf
              · exact absurd h (ne_of_gt hms)
          · intro r hr
            rw [hav] at hr
            simp only [Option.some.injEq] at hr
            subst hr
            exact ⟨rfl, rfl, rfl, rfl, Iff.rfl⟩
        · rw [if_neg hms] at hav
          have hms0 : ssWithinSpec groups
              / ((groups.flatten.length - groups.length : Nat) : ℝ) = 0 := by
            have hge : (0:ℝ) ≤ ssWithinSpec groups
                / ((groups.flatten.length - groups.length : Nat) : ℝ) :=
              div_nonneg (ssWithinSpec_nonneg groups) (Nat.cast_nonneg _)
            exact le_antisymm (not_lt.mp hms) hge
          constructor
          · exact ⟨fun _ => Or.inr (Or.inr (Or.inr hms0)), fun _ => hav⟩
          · intro r hr
            rw [hav] at hr
            exact absurd hr (by simp)

/-- C5 witness: two singleton groups have `df_within = 0`, so ANOVA
returns no result. -/
theorem anova_one_way_spec_witness :
    anova_one_way [[1], [2]] = none ∧ ([[1], [2]] : List (List ℝ)).flatten.length - 2 = 0 :=
  ⟨(anova_one_way_spec [[1], [2]]).1.mpr (Or.inr (Or.inr (Or.inl rfl))), rfl⟩

/-- Modelled from the spec wording: sample variance with the `n − 1`
convention. -/
noncomputable def sampleVarSpec (g : List ℝ) : ℝ :=
  (g.map fun x => (x - g.sum / g.length) ^ 2).sum / ((g.length : ℝ) - 1)

/-- Modelled from the spec wording: the Welch standard error
`sqrt(var1/n1 + var2/n2)`. -/
noncomputable def seSpec (g1 g2 : List ℝ) : ℝ :=
  Real.sqrt (sampleVarSpec g1 / g1.length + sampleVarSpec g2 / g2.length)

/-- Modelled from the spec wording: the denominator of the
Welch-Satterthwaite degrees of freedom. -/
noncomputable def wsDenSpec (g1 g2 : List ℝ) : ℝ :=
  (sampleVarSpec g1 / g1.length) ^ 2 / ((g1.length : ℝ) - 1) +
    (sampleVarSpec g2 / g2.length) ^ 2 / ((g2.length : ℝ) - 1)

/-- `analysis::basic::variance` on a list of at least two elements is the
sample variance; the `usize` subtraction `n - 1` agrees with the real
one there. -/
lemma basicVariance_eq (g : List ℝ) (h : 2 ≤ g.length) :
    basicVariance g = some (sampleVarSpec g) := by
  have hne : g ≠ [] := by
    intro hnil
    rw [hnil] at h
    exact absurd h (by decide)
  rw [basicVariance, if_neg (by omega), basicMean_eq g hne, Option.map_some']
  congr 1
  rw [sampleVarSpec]
  congr 1
  rw [Nat.cast_sub (by omega), Nat.cast_one]

/-- C6: `t_test_welch` returns no result exactly when either group has
fewer than 2 points, the standard error `sqrt(var1/n1 + var2/n2)` is 0,
or the Welch-Satterthwaite degrees-of-freedom denominator is
non-positive; otherwise it returns `t = (mean1 − mean2)/se`,
`mean_diff = mean1 − mean2`, the standard error, the
Welch-Satterthwaite degrees of freedom, and `significant` holds iff
`|t| > 2`. -/
theorem t_test_welch_spec (g1 g2 : List ℝ) :
    (t_test_welch g1 g2 = none ↔
      (g1.length < 2 ∨ g2.length < 2 ∨ seSpec g1 g2 = 0 ∨ wsDenSpec g1 g2 ≤ 0)) ∧
    (∀ r, t_test_welch g1 g2 = some r →
      r.t_statistic = (g1.sum / g1.length - g2.sum / g2.length) / seSpec g1 g2 ∧
      r.mean_diff = g1.sum / g1.length - g2.sum / g2.length ∧
      r.std_error = seSpec g1 g2 ∧
      r.df = (sampleVarSpec g1 / g1.length + sampleVarSpec g2 / g2.length) ^ 2
        / wsDenSpec g1 g2 ∧
      (r.significant ↔ |r.t_statistic| > 2)) := by
  by_cases hl : g1.length < 2 ∨ g2.length < 2
  · have hav : t_test_welch g1 g2 = none := by rw [t_test_welch, if_pos hl]
    constructor
    · constructor
      · intro _
        rcases hl with h | h
        · exact Or.inl h
        · exact Or.inr (Or.inl h)
      · exact fun _ => hav
    · intro r hr
      rw [hav] at hr
      exact absurd hr (by simp)
  · have hl1 : 2 ≤ g1.length := by omega
    have hl2 : 2 ≤ g2.length := by omega
    have hne1 : g1 ≠ [] := by intro hnil; rw [hnil] at hl1; exact absurd hl1 (by decide)
    have hne2 : g2 ≠ [] := by intro hnil; rw [hnil] at hl2; exact absurd hl2 (by decide)
    have hav : t_test_welch g1 g2 =
        (if seSpec g1 g2 = 0 then none
         else if wsDenSpec g1 g2 > 0 then
           some ⟨(g1.sum / g1.length - g2.sum / g2.length) / seSpec g1 g2,
             (sampleVarSpec g1 / g1.length + sampleVarSpec g2 / g2.length) ^ 2
               / wsDenSpec g1 g2,
             g1.sum / g1.length - g2.sum / g2.length, seSpec g1 g2,
             |(g1.sum / g1.length - g2.sum / g2.length) / seSpec g1 g2| > 2⟩
         else none) := by
      rw [t_test_welch, if_neg hl, basicMean_eq g1 hne1, Option.some_bind,
        basicMean_eq g2 hne2, Option.some_bind, basicVariance_eq g1 hl1, Option.some_bind,
        basicVariance_eq g2 hl2, Option.some_bind]
      rfl
    by_cases hse : seSpec g1 g2 = 0
    · rw [if_pos hse] at hav
      constructor
      · exact ⟨fun _ => Or.inr (Or.inr (Or.inl hse)), fun _ => hav⟩
      · intro r hr
        rw [hav] at hr
        exact absurd hr (by simp)
    · rw [if_neg hse] at hav
      by_cases hden : wsDenSpec g1 g2 > 0
      · rw [if_pos hden] at hav
        constructor
        · constructor
          · intro hnone
            rw [hav] at hnone
            exact absurd hnone (by simp)
          · rintro (h | h | h | h)
            · exact absurd (Or.inl h) hl
            · exact absurd (Or.inr h) hl
            · exact absurd h hse
            · exact absurd h (not_le.mpr hden)
        · intro r hr
          rw [hav] at hr
          simp only [Option.some.injEq] at hr
          subst hr
          exact ⟨rfl, rfl, rfl, rfl, Iff.rfl⟩
      · rw [if_neg hden] at hav
        constructor
        · exact ⟨fun _ => Or.inr (Or.inr (Or.inr (not_lt.mp hden))), fun _ => hav⟩
        · intro r hr
          rw [hav] at hr
          exact absurd hr (by simp)

/-- C6 witness: a singleton first group yields no result. -/
theorem t_test_welch_spec_witness :
    t_test_welch [1] [2, 3] = none :=
  (t_test_welch_spec [1] [2, 3]).1.mpr (Or.inl (by decide))
